import Mathlib

/-
Verification of the bw-writer core against its natural-language specification.

Shallow embedding of the generation-invocation core
(`src/framework/llm-utils.js`: `callLLM`, `readKey`, `extractJson`) and of
the protocol dispatch engine (`McpServer` in the MCP implementation file:
`formatMcpError`, `formatMcpResponse`, `formatJsonRpcError`,
`formatJsonRpcResponse`, `findTool`, `addRateLimiter`'s check closure,
`executeToolCall`, `parseMcpRequest`, the JSON-RPC method dispatch).

Modelling conventions:
- JavaScript values are modelled by the inductive `JVal`; `Option JVal`
  distinguishes `undefined` (`none`) from JSON `null` (`some JVal.null`).
- Machine numbers are modelled as `Int`/`Nat` (no floats appear in the
  verified paths; JSON numbers are modelled as integers).
- Fallible code returns `Except`/`Option`; a thrown JS exception that the
  source does not catch is an `Except.error` carrying the message.
- The environment (`process.env`) is a function `String → String`, with the
  empty string standing for an unset variable (both are falsy in the source).
-/

/-- JavaScript/JSON values, as far as the verified code inspects them.
Numbers are modelled as integers (the verified code never branches on
fractional values). Object fields are an association list; inputs are
assumed to have pairwise-distinct keys, matching every object literal in
the source. -/
inductive JVal where
  | null : JVal
  | bool : Bool → JVal
  | num : Int → JVal
  | str : String → JVal
  | arr : List JVal → JVal
  | obj : List (String × JVal) → JVal

/-- Association-list lookup used to model JS property access on objects. -/
def jlook : List (String × JVal) → String → Option JVal
  | [], _ => none
  | (k', v) :: fs, k => if k' = k then some v else jlook fs k

/-- Property access `v[k]`: `none` models `undefined` (non-objects have no
own properties relevant to the verified code). -/
def jfield : JVal → String → Option JVal
  | JVal.obj fs, k => jlook fs k
  | _, _ => none

/-- JS truthiness of a defined value. -/
def truthy : JVal → Bool
  | JVal.null => false
  | JVal.bool b => b
  | JVal.num n => n != 0
  | JVal.str s => s != ""
  | JVal.arr _ => true
  | JVal.obj _ => true

/-- JS truthiness where `none` is `undefined` (falsy). -/
def truthyO : Option JVal → Bool
  | none => false
  | some v => truthy v

/-- Number of own enumerable keys, as `Object.keys(result).length` sees it
for the values the source can receive (objects and arrays; primitives have
none of the keys the source cares about). -/
def keysCount : JVal → Nat
  | JVal.obj fs => fs.length
  | JVal.arr xs => xs.length
  | _ => 0

/-- Whether a field named `k` is present on the value. -/
def hasField (v : JVal) (k : String) : Bool := (jfield v k).isSome

/-- String interpolation of a possibly-undefined value into a JS template
literal, as used in the error messages of the source (only the cases that
arise there are rendered precisely). -/
def jsDisplay : Option JVal → String
  | none => "undefined"
  | some JVal.null => "null"
  | some (JVal.bool b) => if b then "true" else "false"
  | some (JVal.num n) => toString n
  | some (JVal.str s) => s
  | some (JVal.arr _) => "[array]"
  | some (JVal.obj _) => "[object Object]"

/- ===== Generation-invocation core: `callLLM` (llm-utils.js lines 63-107) ===== -/

/-- A chat message, as built by `callLLM` (role plus content). -/
structure Msg where
  role : String
  content : String
deriving DecidableEq

/-- Resolved LLM configuration, the fields of `config` that `callLLM`
reads: provider name, model identifier, the environment-variable name of
the credential (`key`), a directly supplied credential (`apiKey`, the
empty string when absent), and the JSON-schema text that
`zodToJsonSchema(schema)` produces for the caller's output schema
(`callLLM` only ever stringifies it into the prompt). -/
structure CallCfg where
  provider : String
  model : String
  key : String
  apiKey : String
  schemaJson : String

/-- Outcome of one provider-transport-handler invocation: a thrown
exception (message) or a returned value (`none` models `null`/`undefined`,
as `extractJson` can return `null`). -/
inductive LLMOutcome where
  | throws : String → LLMOutcome
  | returns : Option JVal → LLMOutcome

/-- Reads an API key from the environment (`readKey`): the variable's
value, defaulting to the empty string (`key || ''`). -/
def readKey (env : String → String) (keyName : String) : String := env keyName

/-- The schema-annotated prompt: `callLLM` appends a fixed directive plus
the JSON-schema text to the caller's prompt (line 74 of the source). -/
def fullPrompt (prompt schemaJson : String) : String :=
  prompt ++ "\n\n Return only a valid JSON object (no extra text) matching this schema: \n\n======\n\n"
    ++ schemaJson ++ " \n\n=======\n\n"

/-- The message list sent to the transport handler: an optional system
message (only when `systemMessage.trim()` is non-empty) followed by the
schema-annotated user prompt. -/
def buildMessages (systemMessage : String) (userContent : String) : List Msg :=
  (if systemMessage.trim != "" then [⟨"system", systemMessage⟩] else [])
    ++ [⟨"user", userContent⟩]

/-- The non-emptiness test of the retry loop:
`result && Object.keys(result).length > 0`. -/
def nonEmptyResult (v : JVal) : Bool := truthy v && decide (0 < keysCount v)

/-- The retry loop of `callLLM` (lines 87-100). The handler is abstracted
as a function of the attempt index (0-based) and the message list — the
source passes the same `messages` value on every attempt and never sleeps
between attempts. Returns the loop outcome (`ok` carries the returned
object and the 1-based attempt number; `error` carries `lastErr`, the
message of the last thrown handler error, if any) together with the trace
of message lists actually passed to the handler, one entry per attempt
made. -/
def callLoop (handler : Nat → List Msg → LLMOutcome) (messages : List Msg) :
    Nat → Nat → Option String → Except (Option String) (JVal × Nat) × List (List Msg)
  | _, 0, lastErr => (Except.error lastErr, [])
  | attempt, remaining + 1, lastErr =>
    match handler attempt messages with
    | LLMOutcome.throws msg =>
      let r := callLoop handler messages (attempt + 1) remaining (some msg)
      (r.1, messages :: r.2)
    | LLMOutcome.returns none =>
      let r := callLoop handler messages (attempt + 1) remaining lastErr
      (r.1, messages :: r.2)
    | LLMOutcome.returns (some v) =>
      if nonEmptyResult v then (Except.ok (v, attempt + 1), [messages])
      else
        let r := callLoop handler messages (attempt + 1) remaining lastErr
        (r.1, messages :: r.2)

/-- The failure message thrown after the loop exhausts its attempts
(lines 102-106; `lastRes` is declared but never assigned in the source, so
it always stringifies as `undefined`). -/
def failMsg (maxTries : Nat) : Option String → String
  | some e => "Failed after " ++ toString maxTries ++ " attempts. Last error: " ++ e
      ++ " Last response: undefined"
  | none => "Failed after " ++ toString maxTries
      ++ " attempts. No valid response received. Last response: undefined"

/-- Result of a `callLLM` invocation: the value returned or the message of
the exception thrown, together with the trace of message lists passed to
the transport handler (empty when `callLLM` throws before the loop). -/
structure CallOut where
  result : Except String (JVal × Nat)
  attempts : List (List Msg)
deriving Inhabited

/-- Whether the provider has a transport handler (lines 80-84). -/
def providerOk (p : String) : Bool :=
  p == "openai" || p == "anthropic" || p == "perplexity"

/-- The credential resolution of `callLLM` line 68:
`config.apiKey || readKey(config.key)`. -/
def resolveApiKey (env : String → String) (cfg : CallCfg) : String :=
  if cfg.apiKey != "" then cfg.apiKey else readKey env cfg.key

/-- The generation-invocation core `callLLM` (lines 63-107), with the
provider transport handler abstracted as a parameter (the source selects
one of three concrete handlers by `config.provider`; the claims quantify
over transport stubs). Faithful structure: resolve the credential
(`config.apiKey || readKey(config.key)`), throw `No API key found` before
any handler call when it is empty; throw `Unsupported provider` for an
unrecognized provider; otherwise build the message list once and run the
retry loop; the loop's result object is returned as-is (no validation
against the caller's schema appears in the source), and exhaustion throws
the `Failed after N attempts` message. -/
def callLLM (env : String → String) (cfg : CallCfg) (systemMessage prompt : String)
    (maxTries : Nat) (handler : Nat → List Msg → LLMOutcome) : CallOut :=
  let apiKey := resolveApiKey env cfg
  if apiKey = "" then
    ⟨Except.error ("No API key found for " ++ cfg.model), []⟩
  else if ¬ providerOk cfg.provider then
    ⟨Except.error ("Unsupported provider: " ++ cfg.provider), []⟩
  else
    let messages := buildMessages systemMessage (fullPrompt prompt cfg.schemaJson)
    let r := callLoop handler messages 0 maxTries none
    match r.1 with
    | Except.ok x => ⟨Except.ok x, r.2⟩
    | Except.error lastErr => ⟨Except.error (failMsg maxTries lastErr), r.2⟩

/-- The default output schema `z.object({ result: z.string() })` that
`callLLM` installs when the caller supplies none (line 70), modelled as
the boolean validator the spec claims is applied to handler results:
accepts exactly the objects whose `result` field is a string. The source
never applies it (or any schema) to a handler result. -/
def defaultSchemaCheck (v : JVal) : Bool :=
  match jfield v "result" with
  | some (JVal.str _) => true
  | _ => false

/- ===== Protocol dispatch engine: `McpServer` ===== -/

/-- Outcome of invoking a tool handler (or the mock-data provider): a
thrown exception (JS error `name` and `message`) or a returned value
(`none` models `undefined`, `some JVal.null` models `null`). -/
inductive JsOutcome where
  | throws : String → String → JsOutcome
  | value : Option JVal → JsOutcome

/-- A registered tool descriptor: the fields of a tool definition that the
dispatcher reads (`name`, `description`, `parameters`, `handler`). -/
structure Tool where
  name : String
  description : String
  parameters : JVal
  handler : Option JVal → JsOutcome

/-- The server options `executeToolCall` and the JSON-RPC dispatch read:
`serverName`, `version`, `vendor`, `protocolVersion` (default `"1.0"`),
`mockMode`, and the optional `getMockData` function. -/
structure ServerOpts where
  serverName : String
  version : String
  vendor : String
  protocolVersion : String
  mockMode : Bool
  getMockData : Option (Option JVal → Option JVal → JsOutcome)

/-- A per-tool rate limiter's configuration (`addRateLimiter`): window
length in milliseconds and maximum number of requests per window. -/
structure RateLimiterCfg where
  windowMs : Nat
  maxRequests : Nat

/-- The check closure of `addRateLimiter` as a pure state transition on
the list of recorded request timestamps (for the one `default` client the
dispatcher uses): drop timestamps outside the window, reject when the
surviving count has reached the threshold (leaving the filtered state),
otherwise record the current time and accept. Returns
(rate-limit-exceeded?, new timestamp list). -/
def rlCheck (rl : RateLimiterCfg) (times : List Nat) (now : Nat) : Bool × List Nat :=
  let fresh := times.filter (fun t => now - t < rl.windowMs)
  if rl.maxRequests ≤ fresh.length then (true, fresh) else (false, fresh ++ [now])

/-- Minimum of a list of timestamps (`Math.min(...requestCounts[key])`);
only evaluated on non-empty lists in the source path modelled here. -/
def minList : List Nat → Nat
  | [] => 0
  | [t] => t
  | t :: rest => min t (minList rest)

/-- The stored rate-limit error message: wait time until the oldest
surviving request leaves the window, rounded up to whole seconds. -/
def rateLimitMsg (rl : RateLimiterCfg) (fresh : List Nat) (now : Nat) : String :=
  let waitMs := minList fresh + rl.windowMs - now
  "Rate limit exceeded. Try again in " ++ toString ((waitMs + 999) / 1000) ++ " seconds."

/-- Simple-shape error envelope (`formatMcpError`), generalized to carry
arbitrary values for `type` and `message` (the handler-error re-wrap path
copies whatever values the handler's result held). -/
def formatMcpErrorV (pv : String) (ty msg : JVal) : JVal :=
  JVal.obj [("protocolVersion", JVal.str pv),
    ("error", JVal.obj [("type", ty), ("message", msg)])]

/-- Simple-shape error envelope with string type and message. -/
def formatMcpError (pv ty msg : String) : JVal :=
  formatMcpErrorV pv (JVal.str ty) (JVal.str msg)

/-- Simple-shape success envelope (`formatMcpResponse`). -/
def formatMcpResponse (pv : String) (result : JVal) : JVal :=
  JVal.obj [("protocolVersion", JVal.str pv), ("result", result)]

/-- Versioned (JSON-RPC) error envelope (`formatJsonRpcError`),
generalized to an arbitrary message value. -/
def formatJsonRpcErrorV (id : JVal) (code : Int) (msg : JVal) : JVal :=
  JVal.obj [("jsonrpc", JVal.str "2.0"), ("id", id),
    ("error", JVal.obj [("code", JVal.num code), ("message", msg)])]

/-- Versioned (JSON-RPC) error envelope with a string message. -/
def formatJsonRpcError (id : JVal) (code : Int) (msg : String) : JVal :=
  formatJsonRpcErrorV id code (JVal.str msg)

/-- Versioned (JSON-RPC) success envelope (`formatJsonRpcResponse`). -/
def formatJsonRpcResponse (id : JVal) (result : JVal) : JVal :=
  JVal.obj [("jsonrpc", JVal.str "2.0"), ("id", id), ("result", result)]

/-- Whether the (possibly undefined) request name strictly equals the
given string (`name === 'list_resources'` etc.). -/
def nameIs (name : Option JVal) (s : String) : Bool :=
  match name with
  | some (JVal.str t) => t == s
  | _ => false

/-- Tool lookup by name (`findTool`): strict equality of `tool.name` with
the request's name value, so a non-string or undefined name never
matches. -/
def findTool (tools : List Tool) (name : Option JVal) : Option Tool :=
  match name with
  | some (JVal.str s) => tools.find? (fun t => t.name == s)
  | _ => none

/-- The fixed resource catalog `handleListResources` answers with (the
`serverName` parameter it also receives has no effect on the result). -/
def listResourcesResult : JVal :=
  JVal.obj [("resources", JVal.arr [
      JVal.obj [("uri", JVal.str "server-info"), ("name", JVal.str "Server Information"),
        ("description", JVal.str "Basic information about the MCP server"),
        ("parameters", JVal.obj [])],
      JVal.obj [("uri", JVal.str "tool-list"), ("name", JVal.str "Available Tools"),
        ("description", JVal.str "List of available tools on this server"),
        ("parameters", JVal.obj [])]]),
    ("cursor", JVal.null)]

/-- Tool definitions for `tools/list` (`getToolDefinitions`). -/
def getToolDefinitions (tools : List Tool) : JVal :=
  JVal.arr (tools.map (fun t => JVal.obj [("name", JVal.str t.name),
    ("description", JVal.str t.description), ("parameters", t.parameters)]))

/-- The result the handler that executes actually produces: the mock-data
substitute when mock mode is on and a mock provider is configured,
otherwise the tool's own handler applied to the request parameters. -/
def effOutcome (opts : ServerOpts) (tool : Tool) (name parameters : Option JVal) : JsOutcome :=
  match opts.mockMode, opts.getMockData with
  | true, some f => f name parameters
  | _, _ => tool.handler parameters

/-- Whether a handler's return value is `undefined` or `null` (the
defensive check `result === undefined || result === null`). -/
def isNullish : Option JVal → Bool
  | none => true
  | some JVal.null => true
  | some _ => false

/-- The no-response internal error envelope for a `null`/`undefined`
handler return (`result === undefined || result === null`). -/
def noResponseEnvelope (opts : ServerOpts) (isJsonRpc : Bool) (requestId : JVal) : JVal :=
  if isJsonRpc then formatJsonRpcError requestId (-32000) "Internal error: No response from handler"
  else formatMcpError opts.protocolVersion "InternalError" "No response from handler"

/-- The envelope for a caught handler exception: `InvalidParams`
exceptions become an invalid-request envelope, all others an internal
error. -/
def throwEnvelope (opts : ServerOpts) (ename emsg : String)
    (isJsonRpc : Bool) (requestId : JVal) : JVal :=
  if ename = "InvalidParams" then
    if isJsonRpc then formatJsonRpcError requestId (-32602) emsg
    else formatMcpError opts.protocolVersion "InvalidRequest" emsg
  else
    if isJsonRpc then formatJsonRpcError requestId (-32000) emsg
    else formatMcpError opts.protocolVersion "InternalError" emsg

/-- Wrapping of a non-null handler result: a result with truthy
`protocolVersion` and `error` fields is returned verbatim; a result with
truthy `type` and `message` fields is re-wrapped as an error envelope
built from those two field values; anything else becomes a success
envelope. -/
def wrapResult (opts : ServerOpts) (v : JVal) (isJsonRpc : Bool) (requestId : JVal) : JVal :=
  if truthyO (jfield v "protocolVersion") && truthyO (jfield v "error") then v
  else if truthyO (jfield v "type") && truthyO (jfield v "message") then
    if isJsonRpc then
      formatJsonRpcErrorV requestId (-32000) ((jfield v "message").getD JVal.null)
    else
      formatMcpErrorV opts.protocolVersion ((jfield v "type").getD JVal.null)
        ((jfield v "message").getD JVal.null)
  else
    if isJsonRpc then formatJsonRpcResponse requestId v
    else formatMcpResponse opts.protocolVersion v

/-- The post-rate-limit, post-credential-check body of `executeToolCall`
(its try/catch block): run the handler (or mock substitute) and convert
the outcome into an envelope via `throwEnvelope`, `noResponseEnvelope`
and `wrapResult`. -/
def execCore (opts : ServerOpts) (tool : Tool) (name parameters : Option JVal)
    (isJsonRpc : Bool) (requestId : JVal) : JVal :=
  match effOutcome opts tool name parameters with
  | JsOutcome.throws ename emsg => throwEnvelope opts ename emsg isJsonRpc requestId
  | JsOutcome.value r =>
    if isNullish r then noResponseEnvelope opts isJsonRpc requestId
    else wrapResult opts (r.getD JVal.null) isJsonRpc requestId

/-- The credential check plus handler execution: `validateApiKeys` is
skipped (returns `true`) in mock mode; otherwise the result of validating
the registered credential schemas against the environment is abstracted
as `apiKeyError` (`none` when all pass, `some e` carrying the first
validation message). -/
def execValidated (opts : ServerOpts) (tool : Tool) (apiKeyError : Option String)
    (name parameters : Option JVal) (isJsonRpc : Bool) (requestId : JVal) : JVal :=
  match (if opts.mockMode then none else apiKeyError) with
  | some e =>
    if isJsonRpc then formatJsonRpcError requestId (-32602) e
    else formatMcpError opts.protocolVersion "MissingApiKey" e
  | none => execCore opts tool name parameters isJsonRpc requestId

/-- The dispatcher's `executeToolCall`, threading the rate-limiter state
(the timestamp list for the executed tool's `default` client) and the
current time. `Except.error` models an exception escaping
`executeToolCall`: the only such path is `read_resource`, whose handler
method `handleReadResource` is not defined anywhere in the source, so the
call throws a `TypeError`. Order of checks is the source's: built-in
introspection names, registry lookup, rate limit (skipped in mock mode),
credential validation, then handler execution. -/
def executeToolCall (opts : ServerOpts) (tools : List Tool)
    (limiter : Option RateLimiterCfg) (apiKeyError : Option String)
    (rlTimes : List Nat) (now : Nat) (name parameters : Option JVal)
    (isJsonRpc : Bool) (requestId : JVal) : Except String JVal × List Nat :=
  if nameIs name "list_resources" then
    (Except.ok (if isJsonRpc then formatJsonRpcResponse requestId listResourcesResult
      else formatMcpResponse opts.protocolVersion listResourcesResult), rlTimes)
  else if nameIs name "read_resource" then
    (Except.error "this.handleReadResource is not a function", rlTimes)
  else
    match findTool tools name with
    | none =>
      (Except.ok (if isJsonRpc then
          formatJsonRpcError requestId (-32601) ("Tool not found: " ++ jsDisplay name)
        else formatMcpError opts.protocolVersion "UnknownFunction"
          ("Tool not found: " ++ jsDisplay name)), rlTimes)
    | some tool =>
      match limiter, opts.mockMode with
      | some rl, false =>
        let checked := rlCheck rl rlTimes now
        if checked.1 then
          (Except.ok (if isJsonRpc then
              formatJsonRpcError requestId (-32000) (rateLimitMsg rl checked.2 now)
            else formatMcpError opts.protocolVersion "RateLimitExceeded"
              (rateLimitMsg rl checked.2 now)), checked.2)
        else
          (Except.ok (execValidated opts tool apiKeyError name parameters isJsonRpc requestId),
            checked.2)
      | _, _ =>
        (Except.ok (execValidated opts tool apiKeyError name parameters isJsonRpc requestId),
          rlTimes)

/-- A parsed inbound request (`parseMcpRequest`'s result): the versioned
(JSON-RPC) shape carries id, method and nested params; the simple shape
carries name and parameters directly. Absent properties are `none`. -/
structure ParsedReq where
  isJsonRpc : Bool
  id : Option JVal
  method : Option JVal
  name : Option JVal
  parameters : Option JVal

/-- Request parsing after `JSON.parse` (`parseMcpRequest`): the versioned
shape is recognized by the strict test `data.jsonrpc === '2.0'`; every
other value is treated as the simple shape, reading `name` and
`parameters` directly off the parsed value. -/
def parseMcpRequest (data : JVal) : ParsedReq :=
  if nameIs (jfield data "jsonrpc") "2.0" then
    { isJsonRpc := true, id := jfield data "id", method := jfield data "method",
      name := (jfield data "params").bind (fun p => jfield p "name"),
      parameters := (jfield data "params").bind (fun p => jfield p "parameters") }
  else
    { isJsonRpc := false, id := none, method := none,
      name := jfield data "name", parameters := jfield data "parameters" }

/-- The `initialize` result of the JSON-RPC dispatch. -/
def initializeResult (opts : ServerOpts) : JVal :=
  JVal.obj [("name", JVal.str opts.serverName), ("version", JVal.str opts.version),
    ("vendor", JVal.str opts.vendor), ("protocolVersion", JVal.str opts.protocolVersion)]

/-- The JSON-RPC method dispatch (`handleJsonRpcRequest`'s switch):
`initialize`, `tools/list`, `tools/execute` (with a falsy-name guard and
a special missing-`topic` guard for `create_session`), and a method-not-
found default; an exception escaping `executeToolCall` is caught and
converted to a `-32000` error envelope. An undefined correlation id is
modelled as `JVal.null`. -/
def handleJsonRpcRequest (opts : ServerOpts) (tools : List Tool)
    (limiter : Option RateLimiterCfg) (apiKeyError : Option String)
    (rlTimes : List Nat) (now : Nat) (p : ParsedReq) : JVal × List Nat :=
  let idV := p.id.getD JVal.null
  match p.method with
  | some (JVal.str "initialize") =>
    (formatJsonRpcResponse idV (initializeResult opts), rlTimes)
  | some (JVal.str "tools/list") =>
    (formatJsonRpcResponse idV (JVal.obj [("tools", getToolDefinitions tools)]), rlTimes)
  | some (JVal.str "tools/execute") =>
    if ¬ truthyO p.name then
      (formatJsonRpcError idV (-32602) "Invalid params: missing tool name", rlTimes)
    else if nameIs p.name "create_session"
        && !(truthyO p.parameters && truthyO (p.parameters.bind (fun q => jfield q "topic"))) then
      (formatJsonRpcError idV (-32602) "Required parameter \"topic\" is missing", rlTimes)
    else
      match executeToolCall opts tools limiter apiKeyError rlTimes now p.name p.parameters
          true idV with
      | (Except.ok env, st) => (env, st)
      | (Except.error emsg, st) => (formatJsonRpcError idV (-32000) emsg, st)
  | m => (formatJsonRpcError idV (-32601) ("Method not found: " ++ jsDisplay m), rlTimes)

/-- Modelled from the spec: the line-oriented dispatcher's routing glue
(the readline handler that feeds a parsed line either to the JSON-RPC
method dispatch or directly to `executeToolCall`) is not present in the
provided sources — only `parseMcpRequest`, the JSON-RPC switch body and
`executeToolCall` are. Following the spec's dispatch description, a
parsed envelope is routed by its shape discriminator: the versioned shape
to the JSON-RPC dispatch, the simple shape to tool execution with a null
request id. -/
def processRequest (opts : ServerOpts) (tools : List Tool)
    (limiter : Option RateLimiterCfg) (apiKeyError : Option String)
    (rlTimes : List Nat) (now : Nat) (data : JVal) : Except String JVal × List Nat :=
  let p := parseMcpRequest data
  if p.isJsonRpc then
    let r := handleJsonRpcRequest opts tools limiter apiKeyError rlTimes now p
    (Except.ok r.1, r.2)
  else
    executeToolCall opts tools limiter apiKeyError rlTimes now p.name p.parameters false JVal.null

/-- Repeated invocation of the same tool at the given sequence of call
times, threading the rate-limiter state: returns the response of each
call and the final state. -/
def execSeq (opts : ServerOpts) (tools : List Tool) (limiter : Option RateLimiterCfg)
    (apiKeyError : Option String) (name parameters : Option JVal)
    (isJsonRpc : Bool) (requestId : JVal) :
    List Nat → List Nat → List (Except String JVal) × List Nat
  | times, [] => ([], times)
  | times, now :: rest =>
    let r := executeToolCall opts tools limiter apiKeyError times now name parameters
      isJsonRpc requestId
    let tail := execSeq opts tools limiter apiKeyError name parameters isJsonRpc requestId
      r.2 rest
    (r.1 :: tail.1, tail.2)

/-- The envelope well-formedness the spec asserts: the shape's marker
fields are present (protocol version for the simple shape; the jsonrpc
tag and the correlation id for the versioned shape) and exactly one of
`result` and `error` is present. -/
def envelopeOk (isJsonRpc : Bool) (env : JVal) : Bool :=
  (if isJsonRpc then hasField env "jsonrpc" && hasField env "id"
   else hasField env "protocolVersion")
  && (hasField env "result" != hasField env "error")

/-- The `error.type` string of a simple-shape envelope, when present. -/
def errTypeStr (env : JVal) : Option String :=
  match jfield env "error" with
  | some e =>
    match jfield e "type" with
    | some (JVal.str s) => some s
    | _ => none
  | none => none

/- ===== Free-text JSON extraction: `extractJson` (llm-utils.js lines 197-224) ===== -/

/-- Whitespace as the source's regexes and `JSON.parse` treat it (the
ASCII whitespace actually occurring in provider responses). -/
def isWsChar (c : Char) : Bool := c = ' ' || c = '\t' || c = '\n' || c = '\r'

/-- Skip leading whitespace. -/
def skipWs : List Char → List Char
  | [] => []
  | c :: cs => if isWsChar c then skipWs cs else c :: cs

/-- Parse the body of a JSON string after the opening quote, returning the
decoded string and the characters after the closing quote. Supports the
backslash escapes occurring in this code base; a `\u` escape is rejected
(never produced by the verified paths). -/
def parseStringBody : List Char → Option (String × List Char)
  | [] => none
  | c :: cs =>
    if c = '"' then some ("", cs)
    else if c = '\\' then
      match cs with
      | [] => none
      | e :: cs' =>
        let dec : Option Char :=
          if e = '"' then some '"'
          else if e = '\\' then some '\\'
          else if e = '/' then some '/'
          else if e = 'n' then some '\n'
          else if e = 't' then some '\t'
          else if e = 'r' then some '\r'
          else if e = 'b' then some (Char.ofNat 8)
          else if e = 'f' then some (Char.ofNat 12)
          else none
        match dec with
        | none => none
        | some d => (parseStringBody cs').map (fun r => (String.mk (d :: r.1.data), r.2))
    else (parseStringBody cs).map (fun r => (String.mk (c :: r.1.data), r.2))

/-- Decimal digits to a natural number. -/
def digitsToNat (ds : List Char) : Nat :=
  ds.foldl (fun a c => a * 10 + (c.toNat - 48)) 0

/-- Parse a JSON integer literal (numbers are modelled as integers; no
fractional literal appears in the verified inputs). -/
def parseNumber (cs : List Char) : Option (Int × List Char) :=
  match cs with
  | '-' :: rest =>
    let ds := rest.takeWhile (fun c => c.isDigit)
    if ds.isEmpty then none
    else some (-(Int.ofNat (digitsToNat ds)), rest.drop ds.length)
  | _ =>
    let ds := cs.takeWhile (fun c => c.isDigit)
    if ds.isEmpty then none
    else some (Int.ofNat (digitsToNat ds), cs.drop ds.length)

mutual

/-- Fuel-indexed JSON value parser (`JSON.parse`), returning the value and
the unconsumed characters. -/
def parseVal : Nat → List Char → Option (JVal × List Char)
  | 0, _ => none
  | fuel + 1, cs =>
    match skipWs cs with
    | 'n' :: 'u' :: 'l' :: 'l' :: rest => some (JVal.null, rest)
    | 't' :: 'r' :: 'u' :: 'e' :: rest => some (JVal.bool true, rest)
    | 'f' :: 'a' :: 'l' :: 's' :: 'e' :: rest => some (JVal.bool false, rest)
    | '"' :: rest => (parseStringBody rest).map (fun r => (JVal.str r.1, r.2))
    | '[' :: rest =>
      match skipWs rest with
      | ']' :: rest' => some (JVal.arr [], rest')
      | cs' => (parseArrItems fuel cs').map (fun r => (JVal.arr r.1, r.2))
    | '\x7b' :: rest =>
      match skipWs rest with
      | '\x7d' :: rest' => some (JVal.obj [], rest')
      | cs' => (parseObjItems fuel cs').map (fun r => (JVal.obj r.1, r.2))
    | cs' => (parseNumber cs').map (fun r => (JVal.num r.1, r.2))

/-- One or more comma-separated array items up to the closing bracket. -/
def parseArrItems : Nat → List Char → Option (List JVal × List Char)
  | 0, _ => none
  | fuel + 1, cs =>
    match parseVal fuel cs with
    | none => none
    | some (v, rest) =>
      match skipWs rest with
      | ',' :: rest' => (parseArrItems fuel rest').map (fun r => (v :: r.1, r.2))
      | ']' :: rest' => some ([v], rest')
      | _ => none

/-- One or more comma-separated object members up to the closing brace. -/
def parseObjItems : Nat → List Char → Option (List (String × JVal) × List Char)
  | 0, _ => none
  | fuel + 1, cs =>
    match skipWs cs with
    | '"' :: rest =>
      match parseStringBody rest with
      | none => none
      | some (k, rest1) =>
        match skipWs rest1 with
        | ':' :: rest2 =>
          match parseVal fuel rest2 with
          | none => none
          | some (v, rest3) =>
            match skipWs rest3 with
            | ',' :: rest4 => (parseObjItems fuel rest4).map (fun r => ((k, v) :: r.1, r.2))
            | '\x7d' :: rest4 => some ([(k, v)], rest4)
            | _ => none
        | _ => none
    | _ => none

end

/-- `JSON.parse` on a whole string: parse one value and require only
whitespace to remain. The fuel is generous: nesting consumes at least one
character per two fuel steps. -/
def jsonParse (s : String) : Option JVal :=
  match parseVal (2 * s.length + 2) s.data with
  | some (v, rest) => if (skipWs rest).isEmpty then some v else none
  | none => none

/-- Whether `typeof v === 'object'` in JS (objects, arrays and null). -/
def isObjType : JVal → Bool
  | JVal.obj _ => true
  | JVal.arr _ => true
  | JVal.null => true
  | _ => false

/-- The `tryParse` helper of `extractJson`: `JSON.parse` the string and
keep the value only when it is truthy and of object type (so arrays and
objects pass; `null`, numbers, strings and booleans yield `null`). -/
def tryParse (s : String) : Option JVal :=
  match jsonParse s with
  | some v => if truthy v && isObjType v then some v else none
  | none => none

/-- Whether `pat` is a prefix of `cs`. -/
def startsWithChars : List Char → List Char → Bool
  | [], _ => true
  | _ :: _, [] => false
  | p :: ps, c :: cs => p = c && startsWithChars ps cs

/-- Split at the first occurrence of `pat`: returns the characters before
it and the characters after it, or `none` when `pat` does not occur. -/
def splitAtSub (pat : List Char) : List Char → Option (List Char × List Char)
  | [] => if pat.isEmpty then some ([], []) else none
  | c :: cs =>
    if startsWithChars pat (c :: cs) then some ([], (c :: cs).drop pat.length)
    else (splitAtSub pat cs).map (fun r => (c :: r.1, r.2))

/-- Trim whitespace from both ends of a character list. -/
def trimWsBoth (cs : List Char) : List Char :=
  ((cs.dropWhile isWsChar).reverse.dropWhile isWsChar).reverse

/-- Group 1 of the first match of the fenced-code-block pattern
(triple-backtick fence, optional literal `json` tag, surrounding
whitespace stripped greedily, lazily matched body, closing fence): the
text between the first fence and the next one, with an immediately
following `json` tag dropped and surrounding whitespace trimmed. `none`
when no two fences occur. -/
def codeBlockGroup (text : String) : Option String :=
  match splitAtSub ("```".data) text.data with
  | none => none
  | some r1 =>
    match splitAtSub ("```".data) r1.2 with
    | none => none
    | some r2 =>
      let content := if startsWithChars ("json".data) r2.1 then r2.1.drop 4 else r2.1
      some (String.mk (trimWsBoth content))

/-- The characters up to and including the first closing brace, or `none`
when no closing brace follows. -/
def takeThroughClose : List Char → Option (List Char)
  | [] => none
  | c :: rest =>
    if c = '\x7d' then some [c]
    else (takeThroughClose rest).map (fun l => c :: l)

/-- First match of the lazy brace pattern (an opening brace, a lazily
matched body, a closing brace): the substring from the first opening brace
through the earliest closing brace after it. The pattern is not
balance-aware — a nested object is cut at its first closing brace. -/
def braceMatch : List Char → Option (List Char)
  | [] => none
  | c :: rest =>
    if c = '\x7b' then (takeThroughClose rest).map (fun l => c :: l)
    else braceMatch rest

/-- `extractJson` (lines 197-224): empty text yields `null`; otherwise try
a direct parse of the whole text, then the first fenced code block, then
the lazy brace match (whose parse result is returned directly, failed or
not), and finally `null`. -/
def extractJson (text : String) : Option JVal :=
  if text = "" then none
  else
    match tryParse text with
    | some v => some v
    | none =>
      let fromFence : Option JVal :=
        match codeBlockGroup text with
        | some g => tryParse g
        | none => none
      match fromFence with
      | some v => some v
      | none =>
        match braceMatch text.data with
        | some sub => tryParse (String.mk sub)
        | none => none

/-- The payload-extraction order of the OpenAI transport handler (lines
117-134): a present, non-empty tool-call `arguments` string is
`JSON.parse`d directly (a parse failure there throws, modelled as `none`);
otherwise the message content goes through `extractJson`. -/
def openaiExtract (toolArgs : Option String) (content : String) : Option JVal :=
  match toolArgs with
  | some a => if a != "" then jsonParse a else extractJson content
  | none => extractJson content

/- ===== Concrete fixtures used by the claim theorems ===== -/

/-- Environment with only the OpenAI credential set. -/
def testEnv : String → String := fun k => if k = "OPENAI_API_KEY" then "sk-test" else ""

/-- Environment with no credentials at all. -/
def emptyEnv : String → String := fun _ => ""

/-- The resolved `gpt4oMini` preset (the source's default), with an opaque
stand-in for the serialized JSON schema text. -/
def gpt4oMiniCfg : CallCfg :=
  { provider := "openai", model := "gpt-4o-mini", key := "OPENAI_API_KEY",
    apiKey := "", schemaJson := "schema-json-text" }

/-- Transport stub whose parsed object is non-empty but does not satisfy
the caller's (default) schema: it has a `foo` field, not a string
`result` field. -/
def offSchemaHandler : Nat → List Msg → LLMOutcome :=
  fun _ _ => LLMOutcome.returns (some (JVal.obj [("foo", JVal.num 1)]))

/-- Transport stub that returns an empty object on every attempt. -/
def emptyHandler : Nat → List Msg → LLMOutcome :=
  fun _ _ => LLMOutcome.returns (some (JVal.obj []))

/-- Dispatcher options as constructed by the source's defaults (not in
mock mode). -/
def baseOpts : ServerOpts :=
  { serverName := "mcp-server", version := "1.0.0", vendor := "",
    protocolVersion := "1.0", mockMode := false, getMockData := none }

/-- A registered `echo` tool whose handler returns `{x: 1}`. -/
def echoTool : Tool :=
  { name := "echo", description := "Echoes a fixed value", parameters := JVal.obj [],
    handler := fun _ => JsOutcome.value (some (JVal.obj [("x", JVal.num 1)])) }

/-- A handler result carrying truthy `protocolVersion` and `error` fields
together with a `result` field. -/
def bothFieldsVal : JVal :=
  JVal.obj [("protocolVersion", JVal.str "1.0"),
    ("error", JVal.obj [("type", JVal.str "X"), ("message", JVal.str "Y")]),
    ("result", JVal.num 1)]

/-- A registered tool whose handler returns `bothFieldsVal`. -/
def bothFieldsTool : Tool :=
  { name := "both", description := "Returns a pre-formatted envelope", parameters := JVal.obj [],
    handler := fun _ => JsOutcome.value (some bothFieldsVal) }

/-- A handler result with truthy `type` and `message` fields that also
carries truthy `protocolVersion` and `error` fields. -/
def typeMsgEnvelopeVal : JVal :=
  JVal.obj [("type", JVal.str "article"), ("message", JVal.str "draft text"),
    ("protocolVersion", JVal.str "1.0"),
    ("error", JVal.obj [("type", JVal.str "X"), ("message", JVal.str "Y")])]

/-- A registered tool whose handler returns `typeMsgEnvelopeVal`. -/
def typeMsgEnvelopeTool : Tool :=
  { name := "draft", description := "Returns an article draft", parameters := JVal.obj [],
    handler := fun _ => JsOutcome.value (some typeMsgEnvelopeVal) }

/-- A registered tool whose handler returns `{type:"article",
message:"draft text"}` and nothing else. -/
def articleTool : Tool :=
  { name := "article", description := "Returns an article result", parameters := JVal.obj [],
    handler := fun _ => JsOutcome.value (some (JVal.obj [("type", JVal.str "article"),
      ("message", JVal.str "draft text")])) }

/-- The inbound request exactly as the claim's scenario writes it (with a
`protocolVersion` tag instead of a `jsonrpc` tag and method `execute`). -/
def claimVersionedRequest : JVal :=
  JVal.obj [("protocolVersion", JVal.str "2.0"), ("id", JVal.num 7),
    ("method", JVal.str "execute"),
    ("params", JVal.obj [("name", JVal.str "echo"),
      ("parameters", JVal.obj [("x", JVal.num 1)])])]

/-- The versioned request as the source actually recognizes it
(`jsonrpc: "2.0"`, method `tools/execute`). -/
def sourceVersionedRequest : JVal :=
  JVal.obj [("jsonrpc", JVal.str "2.0"), ("id", JVal.num 7),
    ("method", JVal.str "tools/execute"),
    ("params", JVal.obj [("name", JVal.str "echo"),
      ("parameters", JVal.obj [("x", JVal.num 1)])])]

/-- Free text whose only JSON is a nested object embedded in prose. -/
def nestedProseText : String := "The answer is \x7b\"a\":\x7b\"b\":1\x7d\x7d here."

/-- Free text with a flat (unnested) object embedded in prose. -/
def flatProseText : String := "Note \x7b\"a\":1\x7d done"

/-- Free text carrying the object in a fenced code block. -/
def fencedText : String := "```json\n\x7b\"a\":1\x7d\n```"

/-- An attempt outcome the retry loop treats as failed: a thrown handler
error, a null result, or an empty parsed object. -/
def failedAttempt : LLMOutcome → Bool
  | LLMOutcome.throws _ => true
  | LLMOutcome.returns none => true
  | LLMOutcome.returns (some v) => !(nonEmptyResult v)

/-- An attempt outcome that returned (did not throw) and was empty. -/
def emptyOutcome : LLMOutcome → Bool
  | LLMOutcome.throws _ => false
  | LLMOutcome.returns none => true
  | LLMOutcome.returns (some v) => !(nonEmptyResult v)

/- ===== Theorems ===== -/

/-- One-step unfolding of the retry loop at positive fuel. -/
theorem callLoop_succ_eq (handler : Nat → List Msg → LLMOutcome) (messages : List Msg)
    (attempt n : Nat) (lastErr : Option String) :
    callLoop handler messages attempt (n + 1) lastErr =
      match handler attempt messages with
      | LLMOutcome.throws msg =>
        ((callLoop handler messages (attempt + 1) n (some msg)).1,
          messages :: (callLoop handler messages (attempt + 1) n (some msg)).2)
      | LLMOutcome.returns none =>
        ((callLoop handler messages (attempt + 1) n lastErr).1,
          messages :: (callLoop handler messages (attempt + 1) n lastErr).2)
      | LLMOutcome.returns (some v) =>
        if nonEmptyResult v then (Except.ok (v, attempt + 1), [messages])
        else ((callLoop handler messages (attempt + 1) n lastErr).1,
          messages :: (callLoop handler messages (attempt + 1) n lastErr).2) := rfl

/-- Every entry of the retry loop's trace is the one fixed message list. -/
theorem callLoop_trace_mem (handler : Nat → List Msg → LLMOutcome) (messages : List Msg) :
    ∀ (fuel attempt : Nat) (lastErr : Option String) (m : List Msg),
      m ∈ (callLoop handler messages attempt fuel lastErr).2 → m = messages := by
  intro fuel
  induction fuel with
  | zero => intro attempt lastErr m hm; simp [callLoop] at hm
  | succ n ih =>
    intro attempt lastErr m hm
    rw [callLoop_succ_eq] at hm
    cases hh : handler attempt messages with
    | throws mm =>
      rw [hh] at hm
      simp only [List.mem_cons] at hm
      rcases hm with h | h
      · exact h
      · exact ih (attempt + 1) (some mm) m h
    | returns v =>
      cases v with
      | none =>
        rw [hh] at hm
        simp only [List.mem_cons] at hm
        rcases hm with h | h
        · exact h
        · exact ih (attempt + 1) lastErr m h
      | some u =>
        rw [hh] at hm
        dsimp only at hm
        by_cases hne : nonEmptyResult u = true
        · rw [if_pos hne] at hm
          simpa using hm
        · rw [if_neg hne] at hm
          simp only [List.mem_cons] at hm
          rcases hm with h | h
          · exact h
          · exact ih (attempt + 1) lastErr m h

/-- When the handler returns an empty result on every attempt, the loop
makes one attempt per unit of fuel and ends with no recorded error. -/
theorem callLoop_all_empty (handler : Nat → List Msg → LLMOutcome) (messages : List Msg)
    (h : ∀ i, emptyOutcome (handler i messages) = true) :
    ∀ (fuel attempt : Nat), callLoop handler messages attempt fuel none =
      (Except.error none, List.replicate fuel messages) := by
  intro fuel
  induction fuel with
  | zero => intro attempt; simp [callLoop]
  | succ n ih =>
    intro attempt
    have ha := h attempt
    rw [callLoop_succ_eq]
    cases hh : handler attempt messages with
    | throws m => rw [hh] at ha; simp [emptyOutcome] at ha
    | returns v =>
      cases v with
      | none => simp [List.replicate, ih]
      | some u =>
        rw [hh] at ha
        simp [emptyOutcome] at ha
        simp [ha, List.replicate, ih]

/-- When the first `k` attempts fail (throw, return null, or return an
empty object) and attempt `k` returns a non-empty object, the loop
returns that object with attempt number `k + 1`. -/
theorem callLoop_first_success (handler : Nat → List Msg → LLMOutcome) (messages : List Msg)
    (v : JVal) :
    ∀ (k fuel attempt : Nat) (lastErr : Option String), k < fuel →
      (∀ j, j < k → failedAttempt (handler (attempt + j) messages) = true) →
      handler (attempt + k) messages = LLMOutcome.returns (some v) →
      nonEmptyResult v = true →
      (callLoop handler messages attempt fuel lastErr).1 = Except.ok (v, attempt + k + 1) := by
  intro k
  induction k with
  | zero =>
    intro fuel attempt lastErr hfu _ hsucc hne
    cases fuel with
    | zero => omega
    | succ n =>
      rw [Nat.add_zero] at hsucc
      rw [callLoop_succ_eq, hsucc]
      simp [hne]
  | succ k ih =>
    intro fuel attempt lastErr hfu hfail hsucc hne
    cases fuel with
    | zero => omega
    | succ n =>
      have h0 := hfail 0 (by omega)
      rw [Nat.add_zero] at h0
      have hshift : ∀ j, j < k → failedAttempt (handler (attempt + 1 + j) messages) = true := by
        intro j hj
        have hf := hfail (j + 1) (by omega)
        rwa [show attempt + (j + 1) = attempt + 1 + j by omega] at hf
      have hsucc' : handler (attempt + 1 + k) messages = LLMOutcome.returns (some v) := by
        rwa [show attempt + (k + 1) = attempt + 1 + k by omega] at hsucc
      have harith : attempt + 1 + k + 1 = attempt + (k + 1) + 1 := by omega
      rw [callLoop_succ_eq]
      cases hh : handler attempt messages with
      | throws m =>
        have hr := ih n (attempt + 1) (some m) (by omega) hshift hsucc' hne
        rw [← harith]
        simpa using hr
      | returns w =>
        cases w with
        | none =>
          have hr := ih n (attempt + 1) lastErr (by omega) hshift hsucc' hne
          rw [← harith]
          simpa using hr
        | some u =>
          rw [hh] at h0
          simp [failedAttempt] at h0
          have hr := ih n (attempt + 1) lastErr (by omega) hshift hsucc' hne
          rw [← harith]
          simp [h0]
          simpa using hr

/-- C6: when the resolved provider configuration yields an empty
credential (no `apiKey` supplied and the configured environment variable
absent or empty), `callLLM` throws `No API key found for <model>` before
the retry loop, with an empty attempt trace — zero calls to the provider
transport handler. -/
theorem c6_empty_credential_fails_fast (env : String → String) (cfg : CallCfg)
    (systemMessage prompt : String) (maxTries : Nat)
    (handler : Nat → List Msg → LLMOutcome)
    (hak : cfg.apiKey = "") (henv : env cfg.key = "") :
    callLLM env cfg systemMessage prompt maxTries handler =
      ⟨Except.error ("No API key found for " ++ cfg.model), []⟩ := by
  unfold callLLM resolveApiKey readKey
  rw [hak, henv]
  simp

/-- Witness for C6 at a concrete input: an empty environment and the
default preset with no supplied key make `callLLM` throw at once with no
transport attempts. -/
theorem c6_witness :
    callLLM emptyEnv gpt4oMiniCfg "" "Write a post" 3 emptyHandler =
      ⟨Except.error ("No API key found for " ++ gpt4oMiniCfg.model), []⟩ :=
  c6_empty_credential_fails_fast emptyEnv gpt4oMiniCfg "" "Write a post" 3 emptyHandler rfl rfl

/-- C5: with a credential resolved and a supported provider, when the
transport handler returns an empty result on every attempt, `callLLM`
makes exactly `maxTries` attempts and then throws an error whose message
names that attempt count. -/
theorem c5_exhaustion_names_attempt_count (env : String → String) (cfg : CallCfg)
    (systemMessage prompt : String) (maxTries : Nat)
    (handler : Nat → List Msg → LLMOutcome)
    (hmt : 1 ≤ maxTries)
    (hkey : resolveApiKey env cfg ≠ "")
    (hprov : providerOk cfg.provider = true)
    (hempty : ∀ i, emptyOutcome
      (handler i (buildMessages systemMessage (fullPrompt prompt cfg.schemaJson))) = true) :
    (callLLM env cfg systemMessage prompt maxTries handler).attempts.length = maxTries ∧
    (callLLM env cfg systemMessage prompt maxTries handler).result =
      Except.error ("Failed after " ++ toString maxTries
        ++ " attempts. No valid response received. Last response: undefined") := by
  unfold callLLM
  dsimp only
  rw [if_neg hkey, if_neg (by simp [hprov])]
  rw [callLoop_all_empty handler _ hempty maxTries 0]
  simp [failMsg]

/-- Witness for C5 at a concrete input: three attempts against an
always-empty transport stub, then the `Failed after 3 attempts` error. -/
theorem c5_witness :
    (callLLM testEnv gpt4oMiniCfg "" "Write a post" 3 emptyHandler).attempts.length = 3 ∧
    (callLLM testEnv gpt4oMiniCfg "" "Write a post" 3 emptyHandler).result =
      Except.error ("Failed after " ++ toString 3
        ++ " attempts. No valid response received. Last response: undefined") :=
  c5_exhaustion_names_attempt_count testEnv gpt4oMiniCfg "" "Write a post" 3 emptyHandler
    (by decide) (by decide) (by decide) (fun _ => rfl)

/-- C9 counterexample: in a concrete three-attempt run against an
always-empty transport stub, the message list sent on the second attempt
is identical to the one sent on the first — no corrective system note is
appended between attempts, contradicting the claimed
corrective-note-and-backoff retry behavior. -/
theorem c9_counterexample :
    (callLLM testEnv gpt4oMiniCfg "" "Write a post" 3 emptyHandler).attempts.length = 3 ∧
    (callLLM testEnv gpt4oMiniCfg "" "Write a post" 3 emptyHandler).attempts[1]? =
      (callLLM testEnv gpt4oMiniCfg "" "Write a post" 3 emptyHandler).attempts[0]? := by
  constructor <;> rfl

/-- C9 amended: after a failed attempt the loop retries immediately with
the unchanged message list — every attempt sends exactly the message list
built before the loop (no corrective note is ever appended, and the
source contains no delay between attempts). -/
theorem c9_retry_messages_unchanged (env : String → String) (cfg : CallCfg)
    (systemMessage prompt : String) (maxTries : Nat)
    (handler : Nat → List Msg → LLMOutcome) :
    (callLLM env cfg systemMessage prompt maxTries handler).attempts =
      List.replicate (callLLM env cfg systemMessage prompt maxTries handler).attempts.length
        (buildMessages systemMessage (fullPrompt prompt cfg.schemaJson)) := by
  unfold callLLM
  dsimp only
  by_cases h1 : resolveApiKey env cfg = ""
  · rw [if_pos h1]
    rfl
  · rw [if_neg h1]
    by_cases h2 : providerOk cfg.provider = true
    · rw [if_neg (not_not_intro h2)]
      rcases hr : callLoop handler
        (buildMessages systemMessage (fullPrompt prompt cfg.schemaJson)) 0 maxTries none with ⟨res, tr⟩
      have hmem : ∀ m ∈ tr, m = buildMessages systemMessage (fullPrompt prompt cfg.schemaJson) := by
        intro m hm
        exact callLoop_trace_mem handler _ maxTries 0 none m (by rw [hr]; exact hm)
      cases res with
      | ok x =>
        dsimp only
        exact List.eq_replicate_length.mpr hmem
      | error e =>
        dsimp only
        exact List.eq_replicate_length.mpr hmem
    · rw [if_pos h2]
      rfl

/-- C1 counterexample: with no caller schema (so the source installs the
default `z.object({result: z.string()})`), a transport stub returning the
non-empty object `{foo: 1}` — which fails that schema — is returned
directly by `callLLM` on attempt 1, instead of triggering a retry: no
schema validation of the handler result occurs. -/
theorem c1_counterexample :
    (callLLM testEnv gpt4oMiniCfg "" "Write a post" 3 offSchemaHandler).result =
      Except.ok (JVal.obj [("foo", JVal.num 1)], 1) ∧
    defaultSchemaCheck (JVal.obj [("foo", JVal.num 1)]) = false := by
  constructor <;> rfl

/-- C1 amended: on the first attempt whose transport result is a
non-empty parsed object, `callLLM` returns that object immediately and
unconditionally — the caller's schema is only serialized into the prompt
and is never applied to the result. -/
theorem c1_first_nonempty_returned_unvalidated (env : String → String) (cfg : CallCfg)
    (systemMessage prompt : String) (maxTries k : Nat) (v : JVal)
    (handler : Nat → List Msg → LLMOutcome)
    (hkey : resolveApiKey env cfg ≠ "")
    (hprov : providerOk cfg.provider = true)
    (hk : k < maxTries)
    (hfail : ∀ j, j < k → failedAttempt
      (handler j (buildMessages systemMessage (fullPrompt prompt cfg.schemaJson))) = true)
    (hsucc : handler k (buildMessages systemMessage (fullPrompt prompt cfg.schemaJson)) =
      LLMOutcome.returns (some v))
    (hne : nonEmptyResult v = true) :
    (callLLM env cfg systemMessage prompt maxTries handler).result = Except.ok (v, k + 1) := by
  unfold callLLM
  dsimp only
  rw [if_neg hkey, if_neg (by simp [hprov])]
  have hl := callLoop_first_success handler
    (buildMessages systemMessage (fullPrompt prompt cfg.schemaJson)) v k maxTries 0 none hk
    (by intro j hj; simpa using hfail j hj) (by simpa using hsucc) hne
  rw [show 0 + k + 1 = k + 1 by omega] at hl
  rw [hl]

/-- Witness for the amended C1 at a concrete input: the off-schema object
is returned on attempt 1. -/
theorem c1_witness :
    (callLLM testEnv gpt4oMiniCfg "" "Write a post" 3 offSchemaHandler).result =
      Except.ok (JVal.obj [("foo", JVal.num 1)], 1) :=
  c1_first_nonempty_returned_unvalidated testEnv gpt4oMiniCfg "" "Write a post" 3 0
    (JVal.obj [("foo", JVal.num 1)]) offSchemaHandler (by decide) (by decide) (by decide)
    (fun j hj => absurd hj (by omega)) rfl (by decide)

/-- Simple-shape error envelopes are well-formed: marker present, `error`
present, `result` absent. -/
theorem envelopeOk_mcpErrorV (pv : String) (ty msg : JVal) :
    envelopeOk false (formatMcpErrorV pv ty msg) = true := by
  simp [envelopeOk, formatMcpErrorV, hasField, jfield, jlook]

/-- Simple-shape success envelopes are well-formed. -/
theorem envelopeOk_mcpResponse (pv : String) (r : JVal) :
    envelopeOk false (formatMcpResponse pv r) = true := by
  simp [envelopeOk, formatMcpResponse, hasField, jfield, jlook]

/-- Versioned error envelopes are well-formed: tag and id present,
`error` present, `result` absent. -/
theorem envelopeOk_rpcErrorV (id : JVal) (code : Int) (msg : JVal) :
    envelopeOk true (formatJsonRpcErrorV id code msg) = true := by
  simp [envelopeOk, formatJsonRpcErrorV, hasField, jfield, jlook]

/-- Versioned success envelopes are well-formed. -/
theorem envelopeOk_rpcResponse (id : JVal) (r : JVal) :
    envelopeOk true (formatJsonRpcResponse id r) = true := by
  simp [envelopeOk, formatJsonRpcResponse, hasField, jfield, jlook]

/-- C3 counterexample: for the unregistered name `unknown_op` under the
simple shape, the dispatcher's error kind is `UnknownFunction`, not the
`UnknownOperation` the claim asserts. -/
theorem c3_counterexample :
    (executeToolCall baseOpts [] none none [] 0 (some (JVal.str "unknown_op"))
        (some (JVal.obj [])) false JVal.null).1 =
      Except.ok (formatMcpError "1.0" "UnknownFunction" "Tool not found: unknown_op") ∧
    errTypeStr (formatMcpError "1.0" "UnknownFunction" "Tool not found: unknown_op") ≠
      some "UnknownOperation" := by
  refine ⟨rfl, ?_⟩
  decide

/-- C3 amended: for every tool name that is not in the registry and not a
built-in introspection operation, the simple-shape response is an error
envelope whose kind string is exactly `UnknownFunction` (with message
`Tool not found: <name>`), and the rate-limiter state is untouched. -/
theorem c3_unknown_tool_error_kind (opts : ServerOpts) (tools : List Tool)
    (limiter : Option RateLimiterCfg) (apiKeyError : Option String)
    (rlTimes : List Nat) (now : Nat) (name parameters : Option JVal) (requestId : JVal)
    (hlr : nameIs name "list_resources" = false)
    (hrr : nameIs name "read_resource" = false)
    (hft : findTool tools name = none) :
    executeToolCall opts tools limiter apiKeyError rlTimes now name parameters false requestId =
      (Except.ok (formatMcpError opts.protocolVersion "UnknownFunction"
        ("Tool not found: " ++ jsDisplay name)), rlTimes) := by
  simp [executeToolCall, hlr, hrr, hft]

/-- Witness for the amended C3 at the claim's own scenario input. -/
theorem c3_witness :
    executeToolCall baseOpts [] none none [] 0 (some (JVal.str "unknown_op"))
        (some (JVal.obj [])) false JVal.null =
      (Except.ok (formatMcpError baseOpts.protocolVersion "UnknownFunction"
        ("Tool not found: " ++ jsDisplay (some (JVal.str "unknown_op")))), []) :=
  c3_unknown_tool_error_kind baseOpts [] none none [] 0 (some (JVal.str "unknown_op"))
    (some (JVal.obj [])) JVal.null rfl rfl rfl

/-- C2 counterexample: a handler result carrying truthy `protocolVersion`
and `error` fields together with a `result` field is passed through
verbatim, so the emitted envelope contains both `result` and `error`,
contradicting the claimed never-both invariant. -/
theorem c2_counterexample :
    (executeToolCall baseOpts [bothFieldsTool] none none [] 0 (some (JVal.str "both"))
        (some (JVal.obj [])) false JVal.null).1 = Except.ok bothFieldsVal ∧
    hasField bothFieldsVal "result" = true ∧ hasField bothFieldsVal "error" = true := by
  refine ⟨rfl, rfl, rfl⟩

/-- Every non-passthrough result of the try/catch body is a well-formed
envelope. -/
theorem execCore_envelopeOk (opts : ServerOpts) (tool : Tool)
    (name parameters : Option JVal) (isJsonRpc : Bool) (requestId : JVal)
    (hpass : ∀ v, effOutcome opts tool name parameters = JsOutcome.value (some v) →
      (truthyO (jfield v "protocolVersion") && truthyO (jfield v "error")) = false) :
    envelopeOk isJsonRpc (execCore opts tool name parameters isJsonRpc requestId) = true := by
  unfold execCore
  cases ho : effOutcome opts tool name parameters with
  | throws ename emsg =>
    unfold throwEnvelope
    cases isJsonRpc <;>
      by_cases he : ename = "InvalidParams" <;>
        simp [he, envelopeOk_mcpErrorV, envelopeOk_rpcErrorV, formatMcpError, formatJsonRpcError]
  | value r =>
    dsimp only
    by_cases hn : isNullish r = true
    · unfold noResponseEnvelope
      cases isJsonRpc <;>
        simp [hn, envelopeOk_mcpErrorV, envelopeOk_rpcErrorV, formatMcpError, formatJsonRpcError]
    · rw [if_neg hn]
      unfold wrapResult
      cases r with
      | none => simp [isNullish] at hn
      | some v =>
        simp only [Option.getD_some]
        rw [if_neg (by simp [hpass v ho])]
        by_cases htm : (truthyO (jfield v "type") && truthyO (jfield v "message")) = true
        · rw [if_pos htm]
          cases isJsonRpc <;>
            simp [envelopeOk_mcpErrorV, envelopeOk_rpcErrorV]
        · rw [if_neg htm]
          cases isJsonRpc <;>
            simp [envelopeOk_mcpResponse, envelopeOk_rpcResponse]

/-- C2 amended: for every tool-execution request whose name is not the
broken `read_resource` built-in, and for every handler outcome other than
a pre-formatted return (an object with truthy `protocolVersion` and
`error` fields, which the dispatcher passes through verbatim), the
dispatcher emits an envelope that carries the protocol-version marker
(simple shape) or the jsonrpc tag and correlation id (versioned shape)
and contains exactly one of `result` and `error`. -/
theorem c2_envelope_exactly_one (opts : ServerOpts) (tools : List Tool)
    (limiter : Option RateLimiterCfg) (apiKeyError : Option String)
    (rlTimes : List Nat) (now : Nat) (name parameters : Option JVal)
    (isJsonRpc : Bool) (requestId : JVal)
    (hrr : nameIs name "read_resource" = false)
    (hpass : ∀ tool v, findTool tools name = some tool →
      effOutcome opts tool name parameters = JsOutcome.value (some v) →
      (truthyO (jfield v "protocolVersion") && truthyO (jfield v "error")) = false) :
    ∃ env, (executeToolCall opts tools limiter apiKeyError rlTimes now name parameters
        isJsonRpc requestId).1 = Except.ok env ∧ envelopeOk isJsonRpc env = true := by
  unfold executeToolCall
  by_cases hlr : nameIs name "list_resources" = true
  · rw [if_pos hlr]
    cases isJsonRpc <;>
      exact ⟨_, rfl, by simp [envelopeOk_mcpResponse, envelopeOk_rpcResponse]⟩
  · rw [if_neg hlr, if_neg (by simp [hrr])]
    cases hft : findTool tools name with
    | none =>
      cases isJsonRpc <;>
        exact ⟨_, rfl, by
          simp [envelopeOk_mcpErrorV, envelopeOk_rpcErrorV, formatMcpError, formatJsonRpcError]⟩
    | some tool =>
      have hcore : envelopeOk isJsonRpc
          (execValidated opts tool apiKeyError name parameters isJsonRpc requestId) = true := by
        unfold execValidated
        cases hak : (if opts.mockMode then none else apiKeyError) with
        | some e =>
          cases isJsonRpc <;>
            simp [envelopeOk_mcpErrorV, envelopeOk_rpcErrorV, formatMcpError, formatJsonRpcError]
        | none =>
          exact execCore_envelopeOk opts tool name parameters isJsonRpc requestId
            (fun v hv => hpass tool v hft hv)
      cases limiter with
      | none => exact ⟨_, rfl, hcore⟩
      | some rl =>
        cases hm : opts.mockMode with
        | true => exact ⟨_, rfl, hcore⟩
        | false =>
          dsimp only
          by_cases hex : (rlCheck rl rlTimes now).1 = true
          · rw [if_pos hex]
            cases isJsonRpc <;>
              exact ⟨_, rfl, by
                simp [envelopeOk_mcpErrorV, envelopeOk_rpcErrorV, formatMcpError,
                  formatJsonRpcError]⟩
          · rw [if_neg hex]
            exact ⟨_, rfl, hcore⟩

/-- Witness for the amended C2 at a concrete input: a versioned execution
of the registered `echo` tool yields a well-formed envelope. -/
theorem c2_witness :
    ∃ env, (executeToolCall baseOpts [echoTool] none none [] 0 (some (JVal.str "echo"))
        (some (JVal.obj [])) true (JVal.num 7)).1 = Except.ok env ∧
      envelopeOk true env = true :=
  c2_envelope_exactly_one baseOpts [echoTool] none none [] 0 (some (JVal.str "echo"))
    (some (JVal.obj [])) true (JVal.num 7) rfl
    (fun tool v hft hv => by
      cases hft
      cases hv
      rfl)

/-- C10 counterexample: a successful handler result with truthy `type`
and `message` fields that also carries truthy `protocolVersion` and
`error` fields is passed through verbatim rather than re-wrapped, so the
emitted error kind is the embedded `error.type` (`X`), not `result.type`
(`article`) — the claimed universal re-wrap does not hold for every such
object. -/
theorem c10_counterexample :
    (executeToolCall baseOpts [typeMsgEnvelopeTool] none none [] 0 (some (JVal.str "draft"))
        (some (JVal.obj [])) false JVal.null).1 = Except.ok typeMsgEnvelopeVal ∧
    truthyO (jfield typeMsgEnvelopeVal "type") = true ∧
    truthyO (jfield typeMsgEnvelopeVal "message") = true ∧
    errTypeStr typeMsgEnvelopeVal = some "X" ∧
    errTypeStr typeMsgEnvelopeVal ≠ some "article" := by
  refine ⟨rfl, rfl, rfl, rfl, by decide⟩

/-- C10 amended: for every registered tool whose handler successfully
returns an object with truthy `type` and `message` fields that does not
also carry truthy `protocolVersion` and `error` fields (which would be
passed through verbatim), the simple-shape dispatcher re-wraps the
successful result as an error envelope whose `error.type` and
`error.message` are the result's own `type` and `message` values. -/
theorem c10_type_message_rewrapped_as_error (opts : ServerOpts) (tools : List Tool)
    (apiKeyError : Option String) (rlTimes : List Nat) (now : Nat)
    (name parameters : Option JVal) (requestId : JVal) (tool : Tool) (v : JVal)
    (hlr : nameIs name "list_resources" = false)
    (hrr : nameIs name "read_resource" = false)
    (hft : findTool tools name = some tool)
    (hak : (if opts.mockMode then none else apiKeyError) = none)
    (hout : effOutcome opts tool name parameters = JsOutcome.value (some v))
    (htype : truthyO (jfield v "type") = true)
    (hmsg : truthyO (jfield v "message") = true)
    (hnp : (truthyO (jfield v "protocolVersion") && truthyO (jfield v "error")) = false) :
    (executeToolCall opts tools none apiKeyError rlTimes now name parameters
        false requestId).1 =
      Except.ok (formatMcpErrorV opts.protocolVersion ((jfield v "type").getD JVal.null)
        ((jfield v "message").getD JVal.null)) := by
  have hvnull : isNullish (some v) = false := by
    cases v <;> first
      | rfl
      | (exfalso; rw [show jfield JVal.null "type" = none from rfl] at htype; simp [truthyO] at htype)
  unfold executeToolCall
  rw [if_neg (by simp [hlr]), if_neg (by simp [hrr])]
  rw [hft]
  dsimp only
  unfold execValidated
  rw [hak]
  dsimp only
  unfold execCore
  rw [hout]
  dsimp only
  rw [hvnull]
  simp only [Bool.false_eq_true, if_false]
  unfold wrapResult
  simp only [Option.getD_some]
  rw [if_neg (by simp [hnp]), if_pos (by simp [htype, hmsg])]
  simp

/-- Witness for the amended C10: a handler returning
`{type:"article", message:"draft text"}` is re-wrapped as the error
envelope of kind `article` with message `draft text`. -/
theorem c10_witness :
    (executeToolCall baseOpts [articleTool] none none [] 0 (some (JVal.str "article"))
        (some (JVal.obj [])) false JVal.null).1 =
      Except.ok (formatMcpErrorV baseOpts.protocolVersion
        ((jfield (JVal.obj [("type", JVal.str "article"), ("message", JVal.str "draft text")])
          "type").getD JVal.null)
        ((jfield (JVal.obj [("type", JVal.str "article"), ("message", JVal.str "draft text")])
          "message").getD JVal.null)) :=
  c10_type_message_rewrapped_as_error baseOpts [articleTool] none [] 0
    (some (JVal.str "article")) (some (JVal.obj [])) JVal.null articleTool
    (JVal.obj [("type", JVal.str "article"), ("message", JVal.str "draft text")])
    rfl rfl rfl rfl rfl (by decide) (by decide) (by decide)

/-- C4 counterexample: the claim's versioned scenario request, tagged
`protocolVersion: "2.0"` with method `execute`, is not recognized as the
versioned shape (the source's discriminator is `jsonrpc === "2.0"`): it
is parsed as the simple shape with an undefined name, so the response is
a simple-shape `UnknownFunction` error envelope with no `result` and no
`id` — not the claimed `{protocolVersion:"2.0", id:7, result:{x:1}}`. -/
theorem c4_counterexample :
    (processRequest baseOpts [echoTool] none none [] 0 claimVersionedRequest).1 =
      Except.ok (formatMcpError "1.0" "UnknownFunction" "Tool not found: undefined") ∧
    hasField (formatMcpError "1.0" "UnknownFunction" "Tool not found: undefined") "result"
      = false ∧
    jfield (formatMcpError "1.0" "UnknownFunction" "Tool not found: undefined") "id" = none := by
  refine ⟨rfl, rfl, rfl⟩

/-- C4 amended: the versioned shape is recognized by `jsonrpc: "2.0"` and
the execution method is `tools/execute`; for that request against the
registered `echo` tool returning `{x:1}`, the response is
`{jsonrpc:"2.0", id:7, result:{x:1}}` — the correlation id is mirrored
under the `jsonrpc` tag, not under a `protocolVersion` field. -/
theorem c4_versioned_execute_roundtrip :
    (processRequest baseOpts [echoTool] none none [] 0 sourceVersionedRequest).1 =
      Except.ok (JVal.obj [("jsonrpc", JVal.str "2.0"), ("id", JVal.num 7),
        ("result", JVal.obj [("x", JVal.num 1)])]) := by
  rfl

/-- Within one window (all timestamps within `windowMs` above `lo`, and
the current time too), the sliding-window filter keeps every recorded
timestamp. -/
theorem rl_filter_window (W : Nat) (times : List Nat) (now lo : Nat)
    (hts : ∀ t ∈ times, lo ≤ t ∧ t < lo + W)
    (h1 : lo ≤ now) (h2 : now < lo + W) :
    times.filter (fun t => now - t < W) = times := by
  apply List.filter_eq_self.mpr
  intro t ht
  have := hts t ht
  simp only [decide_eq_true_eq]
  omega

/-- One-step unfolding of the repeated-invocation driver. -/
theorem execSeq_cons_eq (opts : ServerOpts) (tools : List Tool)
    (limiter : Option RateLimiterCfg) (apiKeyError : Option String)
    (name parameters : Option JVal) (isJsonRpc : Bool) (requestId : JVal)
    (times : List Nat) (now : Nat) (rest : List Nat) :
    execSeq opts tools limiter apiKeyError name parameters isJsonRpc requestId
        times (now :: rest) =
      ((executeToolCall opts tools limiter apiKeyError times now name parameters
          isJsonRpc requestId).1 ::
        (execSeq opts tools limiter apiKeyError name parameters isJsonRpc requestId
          (executeToolCall opts tools limiter apiKeyError times now name parameters
            isJsonRpc requestId).2 rest).1,
       (execSeq opts tools limiter apiKeyError name parameters isJsonRpc requestId
          (executeToolCall opts tools limiter apiKeyError times now name parameters
            isJsonRpc requestId).2 rest).2) := rfl

/-- A rate-limited tool call under the threshold: the request is recorded
and execution proceeds past the rate check. -/
theorem exec_rl_accepted (opts : ServerOpts) (tools : List Tool) (rl : RateLimiterCfg)
    (apiKeyError : Option String) (rlTimes : List Nat) (now : Nat)
    (name parameters : Option JVal) (isJsonRpc : Bool) (requestId : JVal) (tool : Tool)
    (hlr : nameIs name "list_resources" = false)
    (hrr : nameIs name "read_resource" = false)
    (hft : findTool tools name = some tool)
    (hmock : opts.mockMode = false)
    (hfil : rlTimes.filter (fun t => now - t < rl.windowMs) = rlTimes)
    (hlen : rlTimes.length < rl.maxRequests) :
    executeToolCall opts tools (some rl) apiKeyError rlTimes now name parameters
        isJsonRpc requestId =
      (Except.ok (execValidated opts tool apiKeyError name parameters isJsonRpc requestId),
        rlTimes ++ [now]) := by
  have hc : rlCheck rl rlTimes now = (false, rlTimes ++ [now]) := by
    unfold rlCheck
    rw [hfil, if_neg (by omega)]
  unfold executeToolCall
  rw [if_neg (by simp [hlr]), if_neg (by simp [hrr]), hft]
  dsimp only
  rw [hmock]
  dsimp only
  rw [hc]
  rfl

/-- A rate-limited tool call at or over the threshold under the simple
shape: the request is rejected with the stored `RateLimitExceeded` error
and the filtered state is kept without recording the call. -/
theorem exec_rl_rejected (opts : ServerOpts) (tools : List Tool) (rl : RateLimiterCfg)
    (apiKeyError : Option String) (rlTimes : List Nat) (now : Nat)
    (name parameters : Option JVal) (requestId : JVal) (tool : Tool)
    (hlr : nameIs name "list_resources" = false)
    (hrr : nameIs name "read_resource" = false)
    (hft : findTool tools name = some tool)
    (hmock : opts.mockMode = false)
    (hfil : rlTimes.filter (fun t => now - t < rl.windowMs) = rlTimes)
    (hlen : rl.maxRequests ≤ rlTimes.length) :
    executeToolCall opts tools (some rl) apiKeyError rlTimes now name parameters
        false requestId =
      (Except.ok (formatMcpError opts.protocolVersion "RateLimitExceeded"
        (rateLimitMsg rl rlTimes now)), rlTimes) := by
  have hc : rlCheck rl rlTimes now = (true, rlTimes) := by
    unfold rlCheck
    rw [hfil, if_pos (by omega)]
  unfold executeToolCall
  rw [if_neg (by simp [hlr]), if_neg (by simp [hrr]), hft]
  dsimp only
  rw [hmock]
  dsimp only
  rw [hc]
  rfl

/-- Outside mock mode the executed outcome is the tool's own handler
applied to the parameters. -/
theorem effOutcome_not_mock (opts : ServerOpts) (tool : Tool)
    (name parameters : Option JVal) (hmock : opts.mockMode = false) :
    effOutcome opts tool name parameters = tool.handler parameters := by
  unfold effOutcome
  rw [hmock]

/-- A handler result with none of the special shapes produces the plain
success envelope once the rate and credential checks pass. -/
theorem execValidated_plain_success (opts : ServerOpts) (tool : Tool)
    (apiKeyError : Option String) (name parameters : Option JVal) (requestId : JVal)
    (v : JVal)
    (hmock : opts.mockMode = false)
    (hak : apiKeyError = none)
    (hout : tool.handler parameters = JsOutcome.value (some v))
    (hnn : isNullish (some v) = false)
    (hs1 : (truthyO (jfield v "protocolVersion") && truthyO (jfield v "error")) = false)
    (hs2 : (truthyO (jfield v "type") && truthyO (jfield v "message")) = false) :
    execValidated opts tool apiKeyError name parameters false requestId =
      formatMcpResponse opts.protocolVersion v := by
  unfold execValidated
  rw [hmock, hak]
  simp only [Bool.false_eq_true, if_false]
  unfold execCore
  rw [effOutcome_not_mock opts tool name parameters hmock, hout]
  dsimp only
  rw [hnn]
  simp only [Bool.false_eq_true, if_false]
  unfold wrapResult
  simp only [Option.getD_some]
  rw [if_neg (by simp [hs1]), if_neg (by simp [hs2])]
  rfl

/-- Threshold behavior of a rate-limited tool over a sequence of calls in
one window, generalized over the starting state: with `times` recorded
calls already in the window, call `i` of the sequence succeeds when
`times.length + i` is below the threshold and is rejected with a
`RateLimitExceeded` error otherwise. -/
theorem execSeq_threshold (opts : ServerOpts) (tools : List Tool) (rl : RateLimiterCfg)
    (apiKeyError : Option String) (name parameters : Option JVal) (requestId : JVal)
    (tool : Tool) (v : JVal) (lo : Nat)
    (hlr : nameIs name "list_resources" = false)
    (hrr : nameIs name "read_resource" = false)
    (hft : findTool tools name = some tool)
    (hmock : opts.mockMode = false)
    (hsucc : execValidated opts tool apiKeyError name parameters false requestId =
      formatMcpResponse opts.protocolVersion v) :
    ∀ (nows times : List Nat),
      (∀ t ∈ times, lo ≤ t ∧ t < lo + rl.windowMs) →
      (∀ t ∈ nows, lo ≤ t ∧ t < lo + rl.windowMs) →
      ∀ i, i < nows.length →
        ((times.length + i < rl.maxRequests →
          (execSeq opts tools (some rl) apiKeyError name parameters false requestId
            times nows).1[i]? =
            some (Except.ok (formatMcpResponse opts.protocolVersion v))) ∧
         (rl.maxRequests ≤ times.length + i →
          ∃ m, (execSeq opts tools (some rl) apiKeyError name parameters false requestId
            times nows).1[i]? =
            some (Except.ok (formatMcpError opts.protocolVersion "RateLimitExceeded" m)))) := by
  intro nows
  induction nows with
  | nil =>
    intro times _ _ i hi
    simp at hi
  | cons now rest ih =>
    intro times htb hnb i hi
    have hnowb := hnb now (by simp)
    have hrestb : ∀ t ∈ rest, lo ≤ t ∧ t < lo + rl.windowMs := by
      intro t ht
      exact hnb t (by simp [ht])
    have hfil : times.filter (fun t => now - t < rl.windowMs) = times :=
      rl_filter_window rl.windowMs times now lo htb hnowb.1 hnowb.2
    by_cases hcase : rl.maxRequests ≤ times.length
    · have hexec := exec_rl_rejected opts tools rl apiKeyError times now name parameters
        requestId tool hlr hrr hft hmock hfil hcase
      rw [execSeq_cons_eq, hexec]
      cases i with
      | zero =>
        refine ⟨fun h => by omega, fun _ => ?_⟩
        exact ⟨rateLimitMsg rl times now, by simp⟩
      | succ j =>
        have hj := ih times htb hrestb j (by simpa using hi)
        refine ⟨fun h => by omega, fun _ => ?_⟩
        obtain ⟨m, hm⟩ := hj.2 (by omega)
        exact ⟨m, by simpa using hm⟩
    · have hexec := exec_rl_accepted opts tools rl apiKeyError times now name parameters
        false requestId tool hlr hrr hft hmock hfil (by omega)
      rw [execSeq_cons_eq, hexec]
      cases i with
      | zero =>
        refine ⟨fun _ => by simp [hsucc], fun h => by omega⟩
      | succ j =>
        have htb' : ∀ t ∈ times ++ [now], lo ≤ t ∧ t < lo + rl.windowMs := by
          intro t ht
          rcases List.mem_append.mp ht with h | h
          · exact htb t h
          · simp at h
            subst h
            exact hnowb
        have hj := ih (times ++ [now]) htb' hrestb j (by simpa using hi)
        constructor
        · intro h
          have := hj.1 (by simp; omega)
          simpa using this
        · intro h
          obtain ⟨m, hm⟩ := hj.2 (by simp; omega)
          exact ⟨m, by simpa using hm⟩

/-- C7: for a tool with a configured rate limiter of threshold
`maxRequests` per `windowMs`-millisecond window, not in mock mode, given
calls within one window: each of the first `maxRequests` calls succeeds
(the tool's own success envelope is returned, not a rate-limit
rejection), and every further call within the same window is rejected
with a `RateLimitExceeded` error. -/
theorem c7_rate_limit_threshold (opts : ServerOpts) (tools : List Tool)
    (rl : RateLimiterCfg) (apiKeyError : Option String)
    (name parameters : Option JVal) (requestId : JVal) (tool : Tool) (v : JVal)
    (lo : Nat) (nows : List Nat)
    (hlr : nameIs name "list_resources" = false)
    (hrr : nameIs name "read_resource" = false)
    (hft : findTool tools name = some tool)
    (hmock : opts.mockMode = false)
    (hak : apiKeyError = none)
    (hout : tool.handler parameters = JsOutcome.value (some v))
    (hnn : isNullish (some v) = false)
    (hs1 : (truthyO (jfield v "protocolVersion") && truthyO (jfield v "error")) = false)
    (hs2 : (truthyO (jfield v "type") && truthyO (jfield v "message")) = false)
    (hnb : ∀ t ∈ nows, lo ≤ t ∧ t < lo + rl.windowMs) :
    ∀ i, i < nows.length →
      ((i < rl.maxRequests →
        (execSeq opts tools (some rl) apiKeyError name parameters false requestId
          [] nows).1[i]? =
          some (Except.ok (formatMcpResponse opts.protocolVersion v))) ∧
       (rl.maxRequests ≤ i →
        ∃ m, (execSeq opts tools (some rl) apiKeyError name parameters false requestId
          [] nows).1[i]? =
          some (Except.ok (formatMcpError opts.protocolVersion "RateLimitExceeded" m)))) := by
  have hsucc := execValidated_plain_success opts tool apiKeyError name parameters requestId v
    hmock hak hout hnn hs1 hs2
  intro i hi
  have h := execSeq_threshold opts tools rl apiKeyError name parameters requestId tool v lo
    hlr hrr hft hmock hsucc nows [] (by intro t ht; simp at ht) hnb i hi
  simpa using h

/-- Witness for C7 at the claim's mockable scenario: threshold 1, two
rapid calls — the first succeeds with the tool's result envelope, the
second is rejected with a `RateLimitExceeded` error. -/
theorem c7_witness :
    ((execSeq baseOpts [echoTool] (some ⟨60000, 1⟩) none (some (JVal.str "echo"))
        (some (JVal.obj [])) false JVal.null [] [1000, 1001]).1[0]? =
      some (Except.ok (formatMcpResponse baseOpts.protocolVersion
        (JVal.obj [("x", JVal.num 1)])))) ∧
    (∃ m, (execSeq baseOpts [echoTool] (some ⟨60000, 1⟩) none (some (JVal.str "echo"))
        (some (JVal.obj [])) false JVal.null [] [1000, 1001]).1[1]? =
      some (Except.ok (formatMcpError baseOpts.protocolVersion "RateLimitExceeded" m))) := by
  have h := c7_rate_limit_threshold baseOpts [echoTool] ⟨60000, 1⟩ none
    (some (JVal.str "echo")) (some (JVal.obj [])) JVal.null echoTool
    (JVal.obj [("x", JVal.num 1)]) 1000 [1000, 1001]
    rfl rfl rfl rfl rfl rfl rfl (by decide) (by decide) (by decide)
  exact ⟨(h 0 (by decide)).1 (by decide), (h 1 (by decide)).2 (by decide)⟩

/-- C8 counterexample: a free-text response whose only JSON is the nested
object `{"a":{"b":1}}` embedded in prose is NOT extracted — the brace
fallback is a non-greedy first-open-to-first-close match, not a balanced
one, so the cut substring `{"a":{"b":1}` fails to parse and `extractJson`
returns null. -/
theorem c8_counterexample :
    extractJson nestedProseText = none ∧
    ¬ extractJson nestedProseText =
      some (JVal.obj [("a", JVal.obj [("b", JVal.num 1)])]) := by
  have h1 : extractJson nestedProseText = none := rfl
  refine ⟨h1, ?_⟩
  rw [h1]
  intro h
  exact Option.noConfusion h

/-- C8 amended: the extraction strategies and their order are: (1) a
present non-empty provider-native tool-call argument payload is parsed
directly, bypassing all free-text scanning; otherwise, on non-empty text,
(2) a direct parse of the entire text; (3) otherwise the first fenced
code block; (4) otherwise the substring from the first opening brace to
the earliest following closing brace (a non-greedy, not balance-aware
match), parsed as a substring — so a nested object embedded in prose is
NOT extracted (it yields null), while a flat object in prose and a fenced
object are; (5) otherwise null is returned rather than an exception. -/
theorem c8_extraction_order :
    (∀ a c, a ≠ "" → openaiExtract (some a) c = jsonParse a) ∧
    (∀ text v, text ≠ "" → tryParse text = some v → extractJson text = some v) ∧
    (∀ text v, text ≠ "" → tryParse text = none →
      (∃ g, codeBlockGroup text = some g ∧ tryParse g = some v) →
      extractJson text = some v) ∧
    (∀ text, text ≠ "" → tryParse text = none →
      (codeBlockGroup text = none ∨
        ∃ g, codeBlockGroup text = some g ∧ tryParse g = none) →
      extractJson text = (braceMatch text.data).bind (fun sub => tryParse (String.mk sub))) ∧
    extractJson nestedProseText = none ∧
    extractJson flatProseText = some (JVal.obj [("a", JVal.num 1)]) ∧
    extractJson fencedText = some (JVal.obj [("a", JVal.num 1)]) ∧
    extractJson "no structured content here" = none := by
  refine ⟨?_, ?_, ?_, ?_, rfl, rfl, rfl, rfl⟩
  · intro a c ha
    simp [openaiExtract, ha]
  · intro text v htext hparse
    simp [extractJson, htext, hparse]
  · intro text v htext hnone hfence
    obtain ⟨g, hg, hgp⟩ := hfence
    simp [extractJson, htext, hnone, hg, hgp]
  · intro text htext hnone hfence
    rcases hb : braceMatch text.data with _ | sub
    · rcases hfence with hf | ⟨g, hg, hgp⟩
      · simp [extractJson, htext, hnone, hf, hb]
      · simp [extractJson, htext, hnone, hg, hgp, hb]
    · rcases hfence with hf | ⟨g, hg, hgp⟩
      · simp [extractJson, htext, hnone, hf, hb]
      · simp [extractJson, htext, hnone, hg, hgp, hb]

/-- Witness for the amended C8, instantiating each conditional strategy
at a concrete input: a tool-call payload parsed directly, a bare object
parsed directly from the whole text, a fenced object, and the lazy brace
fallback on the nested-in-prose text (yielding null). -/
theorem c8_witness :
    openaiExtract (some "\x7b\"k\":2\x7d") "ignored" = jsonParse "\x7b\"k\":2\x7d" ∧
    extractJson "\x7b\"a\":1\x7d" = some (JVal.obj [("a", JVal.num 1)]) ∧
    extractJson fencedText = some (JVal.obj [("a", JVal.num 1)]) ∧
    extractJson nestedProseText =
      (braceMatch nestedProseText.data).bind (fun sub => tryParse (String.mk sub)) := by
  have h := c8_extraction_order
  refine ⟨h.1 "\x7b\"k\":2\x7d" "ignored" (by decide), ?_, ?_, ?_⟩
  · exact h.2.1 "\x7b\"a\":1\x7d" (JVal.obj [("a", JVal.num 1)]) (by decide) rfl
  · exact h.2.2.1 fencedText (JVal.obj [("a", JVal.num 1)]) (by decide) rfl
      ⟨"\x7b\"a\":1\x7d", rfl, rfl⟩
  · exact h.2.2.2.1 nestedProseText (by decide) rfl (Or.inl rfl)
